import Mathlib

/-!
# Verification of the demand-planning forecasting pipeline

A shallow embedding, over `ℚ`-valued tables, of the core logic of the
`demand-planning` repository:

* the Enrichment Cascade of `scripts/STAGE2_5_ENRICH.py`
  (`enrich_prices`, `add_data_quality_flags`);
* the wmape metric and confidence classifier of
  `scripts/TRAIN_V4_MODELS.py` (`calculate_wmape`, `get_confidence`) and
  the unguarded wmape variant of `scripts/TRAIN_ALL_MODELS.py`;
* the lag / rolling feature computations of
  `scripts/extract_sku_data_v2.py` (weekly features block) and
  `scripts/TRAIN_V4_MODELS.py` (`add_v4_features`);
* the hierarchical trainer/predictor of `scripts/TRAIN_V4_MODELS.py`
  (per-SKU part of `main`) and of `scripts/TRAIN_V3_HYBRID.py`.

Pandas float columns are embedded as `ℚ`; a float `NaN` (a value pandas'
`dropna`/`notna` treats as missing) is embedded as `Option.none`.  The
external `GradientBoostingRegressor` is not part of this repository; model
fitting is abstracted as a function parameter `fit` that maps a list of
training rows and a query row to a predicted quantity (the spec declares
the design algorithm-agnostic).
-/

/-! ## Section 1: the Enrichment Cascade (`scripts/STAGE2_5_ENRICH.py`) -/

/-- A raw ledger line item, the columns of `sku0_fact_lineitem.csv` that
`enrich_prices` / `add_data_quality_flags` read: `sku`, `quantity`,
`unit_price`, `line_total`, `region_name`, `customer_id`.  A missing
customer id (pandas `NaN`) is `none`; the source also treats the empty
string as missing. -/
structure TRow where
  sku : Nat
  quantity : ℚ
  unit_price : ℚ
  line_total : ℚ
  region_name : String
  customer_id : Option String
deriving DecidableEq

/-- The `price_source` audit tag written by `enrich_prices`.  The source
uses the strings `original`, `inferred_from_sku_avg`,
`inferred_from_master`, `has_total_no_unit_price`,
`missing_no_reference`. -/
inductive PriceSource where
  | original
  | inferred_from_sku_avg
  | inferred_from_master
  | has_total_no_unit_price
  | missing_no_reference
deriving DecidableEq

/-- A ledger row after `enrich_prices`: the row plus the tracking columns
`price_source`, `price_inferred`, `original_unit_price`,
`original_line_total` added at the top of `enrich_prices`. -/
structure ERow where
  sku : Nat
  quantity : ℚ
  unit_price : ℚ
  line_total : ℚ
  region_name : String
  customer_id : Option String
  price_source : PriceSource
  price_inferred : Bool
  original_unit_price : ℚ
  original_line_total : ℚ
deriving DecidableEq

/-- Project an enriched row back to its raw columns (the columns a second
enrichment pass would read; the tracking columns are unconditionally
overwritten at the start of `enrich_prices`). -/
def ERow.toRow (o : ERow) : TRow :=
  ⟨o.sku, o.quantity, o.unit_price, o.line_total, o.region_name, o.customer_id⟩

/-- `df['effective_price'] = np.where(quantity > 0, line_total/quantity,
unit_price)` (STAGE2_5_ENRICH.py lines 72-76). -/
def effective_price (r : TRow) : ℚ :=
  if 0 < r.quantity then r.line_total / r.quantity else r.unit_price

/-- The effective prices that enter the per-SKU average: rows of the given
SKU whose effective price is strictly positive
(`df[df['effective_price'] > 0].groupby('sku')`, line 78). -/
def effPrices (ledger : List TRow) (s : Nat) : List ℚ :=
  ((ledger.filter (fun r => r.sku == s)).map effective_price).filter
    (fun q => decide (0 < q))

/-- Per-SKU mean effective price (`sku_avg_price`, lines 78-83): `none`
when the SKU has no row with positive effective price (a pandas `NaN`
after the left merge). -/
def skuAvgPrice (ledger : List TRow) (s : Nat) : Option ℚ :=
  let l := effPrices ledger s
  if l.isEmpty then none else some (l.sum / l.length)

/-- The product-master fallback price (lines 97-100):
`products[products['price'] > 0].set_index('sku_clean')['price'].to_dict()`.
`to_dict` keeps the last occurrence of a duplicate key, hence the
`reverse`.  The catalog is a list of `(sku, price)` pairs. -/
def masterPrice (products : List (Nat × ℚ)) (s : Nat) : Option ℚ :=
  ((products.filter (fun p => decide (0 < p.2))).reverse.find?
    (fun p => p.1 == s)).map (fun p => p.2)

/-- The mask pipeline of `enrich_prices` (lines 52-123) decomposed per
row.  `avg` is the per-SKU average computed on the whole input ledger,
`master` the catalog lookup.  The branches, in source order:
truly-missing rows (`unit_price == 0 ∧ line_total == 0`) are resolved by
SKU average (lines 86-92), else by master price (lines 99-107), else
tagged `missing_no_reference` (line 123); rows with
`unit_price == 0 ∧ line_total > 0` are tagged `has_total_no_unit_price`
and, when `quantity > 0`, back-filled with `line_total / quantity`
(lines 110-116); every other row is untouched and keeps the tag
`original` (line 53). -/
def enrichRow (avg master : Nat → Option ℚ) (r : TRow) : ERow :=
  if r.unit_price = 0 ∧ r.line_total = 0 then
    match avg r.sku with
    | some a =>
        ⟨r.sku, r.quantity, a, r.quantity * a, r.region_name, r.customer_id,
          PriceSource.inferred_from_sku_avg, true, r.unit_price, r.line_total⟩
    | none =>
        match master r.sku with
        | some m =>
            ⟨r.sku, r.quantity, m, r.quantity * m, r.region_name, r.customer_id,
              PriceSource.inferred_from_master, true, r.unit_price, r.line_total⟩
        | none =>
            ⟨r.sku, r.quantity, r.unit_price, r.line_total, r.region_name, r.customer_id,
              PriceSource.missing_no_reference, false, r.unit_price, r.line_total⟩
  else if r.unit_price = 0 ∧ 0 < r.line_total then
    if 0 < r.quantity then
      ⟨r.sku, r.quantity, r.line_total / r.quantity, r.line_total, r.region_name,
        r.customer_id, PriceSource.has_total_no_unit_price, true,
        r.unit_price, r.line_total⟩
    else
      ⟨r.sku, r.quantity, r.unit_price, r.line_total, r.region_name, r.customer_id,
        PriceSource.has_total_no_unit_price, false, r.unit_price, r.line_total⟩
  else
    ⟨r.sku, r.quantity, r.unit_price, r.line_total, r.region_name, r.customer_id,
      PriceSource.original, false, r.unit_price, r.line_total⟩

/-- `enrich_prices(df, products)` (STAGE2_5_ENRICH.py lines 39-136):
row-wise application of the cascade, with the SKU averages computed once
on the input ledger. -/
def enrich_prices (ledger : List TRow) (products : List (Nat × ℚ)) : List ERow :=
  ledger.map (enrichRow (skuAvgPrice ledger) (masterPrice products))

/-- `add_data_quality_flags` (lines 178-207): score starts at 100;
minus 10 when `price_inferred`, minus 30 when both price and total are
still zero, minus 20 when the region is `Unknown`, minus 10 when the
customer id is empty or missing; clipped below at 0. -/
def dq_score (o : ERow) : ℤ :=
  max 0 (100
    - (if o.price_inferred then 10 else 0)
    - (if o.unit_price = 0 ∧ o.line_total = 0 then 30 else 0)
    - (if o.region_name = "Unknown" then 20 else 0)
    - (if o.customer_id = none ∨ o.customer_id = some "" then 10 else 0))

/-- Total ledger revenue before enrichment (`df['line_total'].sum()`,
STAGE2_5_ENRICH.py line 320). -/
def total_revenue (l : List TRow) : ℚ := (l.map (fun r => r.line_total)).sum

/-- Total ledger revenue after enrichment (line 353). -/
def total_revenue_enriched (l : List ERow) : ℚ := (l.map (fun o => o.line_total)).sum

/-- `truly_missing_mask.sum()` (line 60): rows with both price and total
zero. -/
def truly_missing_count (l : List TRow) : Nat :=
  l.countP (fun r => decide (r.unit_price = 0 ∧ r.line_total = 0))

/-- `final_zero_revenue` (line 119): rows still with both price and total
zero after the cascade. -/
def unresolved_count (l : List ERow) : Nat :=
  l.countP (fun o => decide (o.unit_price = 0 ∧ o.line_total = 0))

/-! ### Basic facts about the cascade -/

theorem mem_effPrices_pos {ledger : List TRow} {s : Nat} {q : ℚ}
    (h : q ∈ effPrices ledger s) : 0 < q := by
  unfold effPrices at h
  simpa using (List.mem_filter.mp h).2

theorem skuAvgPrice_pos {ledger : List TRow} {s : Nat} {a : ℚ}
    (h : skuAvgPrice ledger s = some a) : 0 < a := by
  by_cases he : (effPrices ledger s).isEmpty
  · simp [skuAvgPrice, he] at h
  · simp [skuAvgPrice, he] at h
    have hne : effPrices ledger s ≠ [] := by
      simpa [List.isEmpty_iff] using he
    have hsum : 0 < (effPrices ledger s).sum :=
      List.sum_pos _ (fun q hq => mem_effPrices_pos hq) hne
    have hlen : 0 < ((effPrices ledger s).length : ℚ) := by
      have : 0 < (effPrices ledger s).length := List.length_pos.mpr hne
      exact_mod_cast this
    have hd := div_pos hsum hlen
    rwa [h] at hd

theorem masterPrice_pos {products : List (Nat × ℚ)} {s : Nat} {m : ℚ}
    (h : masterPrice products s = some m) : 0 < m := by
  unfold masterPrice at h
  cases hf : (products.filter (fun p => decide (0 < p.2))).reverse.find?
      (fun p => p.1 == s) with
  | none => rw [hf] at h; simp at h
  | some x =>
    rw [hf] at h
    simp only [Option.map_some', Option.some_inj] at h
    have hx : x ∈ (products.filter (fun p => decide (0 < p.2))).reverse :=
      List.mem_of_find?_eq_some hf
    rw [List.mem_reverse] at hx
    have hpos : 0 < x.2 := by simpa using (List.mem_filter.mp hx).2
    rwa [h] at hpos

theorem enrichRow_line_total_of_pos (avg master : Nat → Option ℚ) (r : TRow)
    (h : 0 < r.line_total) :
    (enrichRow avg master r).line_total = r.line_total := by
  unfold enrichRow
  have h0 : ¬(r.unit_price = 0 ∧ r.line_total = 0) := by
    rintro ⟨-, ht⟩
    rw [ht] at h
    exact lt_irrefl 0 h
  rw [if_neg h0]
  by_cases h1 : r.unit_price = 0 ∧ 0 < r.line_total
  · rw [if_pos h1]
    by_cases hq : 0 < r.quantity
    · rw [if_pos hq]
    · rw [if_neg hq]
  · rw [if_neg h1]

/-- C5: a row whose `line_total` is already positive before enrichment
keeps its `line_total` unchanged (the cascade only ever writes
`line_total` for truly-missing rows), and the row
`{quantity=10, unit_price=0, line_total=500}` comes out with
`unit_price = 500/10 = 50`, tag `has_total_no_unit_price`, and
`line_total` still 500. -/
theorem enrich_preserves_positive_revenue :
    (∀ (ledger : List TRow) (products : List (Nat × ℚ)) (i : Nat)
      (h1 : i < ledger.length) (h2 : i < (enrich_prices ledger products).length),
      0 < (ledger.get ⟨i, h1⟩).line_total →
      ((enrich_prices ledger products).get ⟨i, h2⟩).line_total
        = (ledger.get ⟨i, h1⟩).line_total)
    ∧ enrich_prices [⟨1, 10, 0, 500, "Cape Town", some "c"⟩] []
        = [⟨1, 10, 50, 500, "Cape Town", some "c",
            PriceSource.has_total_no_unit_price, true, 0, 500⟩] := by
  constructor
  · intro ledger products i h1 h2 hpos
    have hmap : (enrich_prices ledger products).get ⟨i, h2⟩
        = enrichRow (skuAvgPrice ledger) (masterPrice products) (ledger.get ⟨i, h1⟩) := by
      simp [enrich_prices, List.get_eq_getElem]
    rw [hmap]
    exact enrichRow_line_total_of_pos _ _ _ hpos
  · norm_num [enrich_prices, enrichRow, skuAvgPrice, effPrices, effective_price,
      masterPrice]

/-- Witness for `enrich_preserves_positive_revenue`: its frame property,
applied at the concrete one-row ledger of Scenario C. -/
theorem enrich_preserves_positive_revenue_witness :
    ((enrich_prices [⟨1, 10, 0, 500, "Cape Town", some "c"⟩] []).get ⟨0, by decide⟩).line_total
      = (([⟨1, 10, 0, 500, "Cape Town", some "c"⟩] : List TRow).get ⟨0, by decide⟩).line_total :=
  enrich_preserves_positive_revenue.1
    [⟨1, 10, 0, 500, "Cape Town", some "c"⟩] [] 0 (by decide) (by decide) (by decide)

theorem enrichRow_inferred_iff (avg master : Nat → Option ℚ) (r : TRow) :
    ((enrichRow avg master r).price_inferred = true ↔
      ((enrichRow avg master r).price_source = PriceSource.inferred_from_sku_avg
        ∨ (enrichRow avg master r).price_source = PriceSource.inferred_from_master
        ∨ ((enrichRow avg master r).price_source = PriceSource.has_total_no_unit_price
            ∧ 0 < (enrichRow avg master r).quantity))) := by
  unfold enrichRow
  by_cases h0 : r.unit_price = 0 ∧ r.line_total = 0
  · rw [if_pos h0]
    cases havg : avg r.sku with
    | some a => simp
    | none =>
      cases hm : master r.sku with
      | some m => simp
      | none => simp
  · rw [if_neg h0]
    by_cases h1 : r.unit_price = 0 ∧ 0 < r.line_total
    · rw [if_pos h1]
      by_cases hq : 0 < r.quantity
      · rw [if_pos hq]
        simp [hq]
      · rw [if_neg hq]
        simp [hq]
    · rw [if_neg h1]
      simp

theorem dq_score_nonneg (o : ERow) : 0 ≤ dq_score o := le_max_left 0 _

theorem dq_score_le_100 (o : ERow) : dq_score o ≤ 100 := by
  unfold dq_score
  split_ifs <;> omega

/-- C9 (amended): the 10-point deduction applies exactly when the
`price_inferred` flag is set, and the cascade sets that flag not only for
steps 2-3 (SKU-average / master inference) but also when a
`has_total_no_unit_price` row with positive quantity gets its unit price
back-filled (STAGE2_5_ENRICH.py line 116); the score is always in
`[0, 100]`; Scenario D: a truly-missing row with no other rows for its
SKU and no catalog entry stays at zero price and revenue, is tagged
`missing_no_reference`, and scores `100 - 30 = 70`. -/
theorem dq_penalty_characterization :
    (∀ (ledger : List TRow) (products : List (Nat × ℚ)) (o : ERow),
      o ∈ enrich_prices ledger products →
      (o.price_inferred = true ↔
        (o.price_source = PriceSource.inferred_from_sku_avg
          ∨ o.price_source = PriceSource.inferred_from_master
          ∨ (o.price_source = PriceSource.has_total_no_unit_price ∧ 0 < o.quantity))))
    ∧ (∀ o : ERow, 0 ≤ dq_score o ∧ dq_score o ≤ 100)
    ∧ enrich_prices [⟨1, 5, 0, 0, "Cape Town", some "c"⟩] []
        = [⟨1, 5, 0, 0, "Cape Town", some "c", PriceSource.missing_no_reference,
            false, 0, 0⟩]
    ∧ dq_score ⟨1, 5, 0, 0, "Cape Town", some "c", PriceSource.missing_no_reference,
        false, 0, 0⟩ = 70 := by
  refine ⟨?_, fun o => ⟨dq_score_nonneg o, dq_score_le_100 o⟩, ?_, ?_⟩
  · intro ledger products o ho
    rcases List.mem_map.mp ho with ⟨r, -, rfl⟩
    exact enrichRow_inferred_iff _ _ r
  · norm_num [enrich_prices, enrichRow, skuAvgPrice, effPrices, effective_price,
      masterPrice]
  · norm_num [dq_score]
    decide

/-- Witness for `dq_penalty_characterization`: the membership hypothesis
discharged at the concrete one-row ledger of Scenario D. -/
theorem dq_penalty_characterization_witness :
    (⟨1, 5, 0, 0, "Cape Town", some "c", PriceSource.missing_no_reference,
        false, 0, 0⟩ : ERow) ∈ enrich_prices [⟨1, 5, 0, 0, "Cape Town", some "c"⟩] []
    ∧ ((⟨1, 5, 0, 0, "Cape Town", some "c", PriceSource.missing_no_reference,
        false, 0, 0⟩ : ERow).price_inferred = true ↔
        ((⟨1, 5, 0, 0, "Cape Town", some "c", PriceSource.missing_no_reference,
            false, 0, 0⟩ : ERow).price_source = PriceSource.inferred_from_sku_avg
          ∨ (⟨1, 5, 0, 0, "Cape Town", some "c", PriceSource.missing_no_reference,
              false, 0, 0⟩ : ERow).price_source = PriceSource.inferred_from_master
          ∨ ((⟨1, 5, 0, 0, "Cape Town", some "c", PriceSource.missing_no_reference,
              false, 0, 0⟩ : ERow).price_source = PriceSource.has_total_no_unit_price
              ∧ 0 < (⟨1, 5, 0, 0, "Cape Town", some "c",
                  PriceSource.missing_no_reference, false, 0, 0⟩ : ERow).quantity))) :=
  have hmem : (⟨1, 5, 0, 0, "Cape Town", some "c", PriceSource.missing_no_reference,
      false, 0, 0⟩ : ERow) ∈ enrich_prices [⟨1, 5, 0, 0, "Cape Town", some "c"⟩] [] := by
    norm_num [enrich_prices, enrichRow, skuAvgPrice, effPrices, effective_price,
      masterPrice]
  ⟨hmem, dq_penalty_characterization.1 _ _ _ hmem⟩

/-- C9 counterexample: the row `{quantity=10, unit_price=0,
line_total=500}` is back-filled (step 1, tag `has_total_no_unit_price`),
not inferred by cascade steps 2-3, yet its quality score is `90`, not
`100`: the 10-point deduction is keyed on the `price_inferred` flag,
which line 116 of STAGE2_5_ENRICH.py also sets for back-filled rows.
This refutes the claim that the score is reduced by 10 exactly when the
price was inferred by steps 2-3. -/
theorem dq_penalty_counterexample :
    (enrich_prices [⟨1, 10, 0, 500, "Cape Town", some "c"⟩] []).map dq_score = [90]
    ∧ (enrich_prices [⟨1, 10, 0, 500, "Cape Town", some "c"⟩] []).map
        (fun o => o.price_source) = [PriceSource.has_total_no_unit_price]
    ∧ (90 : ℤ) ≠ 100 := by
  refine ⟨?_, ?_, by norm_num⟩
  · norm_num [enrich_prices, enrichRow, skuAvgPrice, effPrices, effective_price,
      masterPrice, dq_score]
    decide
  · norm_num [enrich_prices, enrichRow, skuAvgPrice, effPrices, effective_price,
      masterPrice, dq_score]

theorem enrichRow_line_total_ge (avg master : Nat → Option ℚ)
    (hA : ∀ s a, avg s = some a → 0 < a) (hM : ∀ s m, master s = some m → 0 < m)
    (r : TRow) (hq : 0 ≤ r.quantity) :
    r.line_total ≤ (enrichRow avg master r).line_total := by
  unfold enrichRow
  by_cases h0 : r.unit_price = 0 ∧ r.line_total = 0
  · rw [if_pos h0]
    cases havg : avg r.sku with
    | some a =>
      show r.line_total ≤ r.quantity * a
      rw [h0.2]
      exact mul_nonneg hq (hA _ _ havg).le
    | none =>
      cases hm : master r.sku with
      | some m =>
        show r.line_total ≤ r.quantity * m
        rw [h0.2]
        exact mul_nonneg hq (hM _ _ hm).le
      | none => exact le_refl _
  · rw [if_neg h0]
    by_cases h1 : r.unit_price = 0 ∧ 0 < r.line_total
    · rw [if_pos h1]
      by_cases hqq : 0 < r.quantity
      · rw [if_pos hqq]
      · rw [if_neg hqq]
    · rw [if_neg h1]

theorem enrichRow_unresolved_implies (avg master : Nat → Option ℚ) (r : TRow)
    (h : (enrichRow avg master r).unit_price = 0 ∧ (enrichRow avg master r).line_total = 0) :
    r.unit_price = 0 ∧ r.line_total = 0 := by
  unfold enrichRow at h
  by_cases h0 : r.unit_price = 0 ∧ r.line_total = 0
  · exact h0
  · rw [if_neg h0] at h
    by_cases h1 : r.unit_price = 0 ∧ 0 < r.line_total
    · rw [if_pos h1] at h
      by_cases hqq : 0 < r.quantity
      · rw [if_pos hqq] at h
        have ht : r.line_total = 0 := h.2
        exact absurd (ht ▸ h1.2) (lt_irrefl 0)
      · rw [if_neg hqq] at h
        have ht : r.line_total = 0 := h.2
        exact absurd (ht ▸ h1.2) (lt_irrefl 0)
    · rw [if_neg h1] at h
      exact absurd h h0

/-- C6: on a ledger with all quantities nonnegative, the cascade never
decreases total revenue, and the number of rows left with both price and
revenue zero after enrichment is at most the number of truly-missing
rows before it. -/
theorem enrichment_monotonicity :
    ∀ (ledger : List TRow) (products : List (Nat × ℚ)),
      (∀ r ∈ ledger, 0 ≤ r.quantity) →
      total_revenue ledger ≤ total_revenue_enriched (enrich_prices ledger products)
      ∧ unresolved_count (enrich_prices ledger products) ≤ truly_missing_count ledger := by
  intro ledger products hq
  have hA : ∀ s a, skuAvgPrice ledger s = some a → 0 < a :=
    fun s a h => skuAvgPrice_pos h
  have hM : ∀ s m, masterPrice products s = some m → 0 < m :=
    fun s m h => masterPrice_pos h
  constructor
  · unfold total_revenue total_revenue_enriched enrich_prices
    rw [List.map_map]
    exact List.sum_le_sum fun r hr =>
      enrichRow_line_total_ge _ _ hA hM r (hq r hr)
  · unfold unresolved_count truly_missing_count enrich_prices
    rw [List.countP_map]
    refine List.countP_mono_left fun r hr hp => ?_
    have h := of_decide_eq_true hp
    exact decide_eq_true (enrichRow_unresolved_implies _ _ r h)

/-- Witness for `enrichment_monotonicity`: the two-row ledger in which a
truly-missing row is resolved from the SKU average of its sibling. -/
theorem enrichment_monotonicity_witness :
    (∀ r ∈ ([⟨1, 2, 5, 10, "Cape Town", some "c"⟩,
        ⟨1, 3, 0, 0, "Cape Town", some "c"⟩] : List TRow), 0 ≤ r.quantity)
    ∧ total_revenue [⟨1, 2, 5, 10, "Cape Town", some "c"⟩,
        ⟨1, 3, 0, 0, "Cape Town", some "c"⟩]
      ≤ total_revenue_enriched (enrich_prices
          [⟨1, 2, 5, 10, "Cape Town", some "c"⟩,
           ⟨1, 3, 0, 0, "Cape Town", some "c"⟩] [])
    ∧ unresolved_count (enrich_prices
          [⟨1, 2, 5, 10, "Cape Town", some "c"⟩,
           ⟨1, 3, 0, 0, "Cape Town", some "c"⟩] [])
      ≤ truly_missing_count [⟨1, 2, 5, 10, "Cape Town", some "c"⟩,
          ⟨1, 3, 0, 0, "Cape Town", some "c"⟩] :=
  have hq : ∀ r ∈ ([⟨1, 2, 5, 10, "Cape Town", some "c"⟩,
      ⟨1, 3, 0, 0, "Cape Town", some "c"⟩] : List TRow), 0 ≤ r.quantity := by
    intro r hr
    simp only [List.mem_cons, List.not_mem_nil, or_false] at hr
    rcases hr with rfl | rfl <;> norm_num
  have h := enrichment_monotonicity
    [⟨1, 2, 5, 10, "Cape Town", some "c"⟩, ⟨1, 3, 0, 0, "Cape Town", some "c"⟩] [] hq
  ⟨hq, h.1, h.2⟩

theorem ERow.toRow_sku (o : ERow) : o.toRow.sku = o.sku := rfl

theorem ERow.toRow_unit_price (o : ERow) : o.toRow.unit_price = o.unit_price := rfl

theorem ERow.toRow_line_total (o : ERow) : o.toRow.line_total = o.line_total := rfl

theorem enrichRow_sku (avg master : Nat → Option ℚ) (r : TRow) :
    (enrichRow avg master r).sku = r.sku := by
  unfold enrichRow
  by_cases h0 : r.unit_price = 0 ∧ r.line_total = 0
  · rw [if_pos h0]
    cases avg r.sku with
    | some a => rfl
    | none =>
      cases master r.sku with
      | some m => rfl
      | none => rfl
  · rw [if_neg h0]
    by_cases h1 : r.unit_price = 0 ∧ 0 < r.line_total
    · rw [if_pos h1]
      by_cases hq : 0 < r.quantity
      · rw [if_pos hq]
      · rw [if_neg hq]
    · rw [if_neg h1]

theorem enrichRow_vals_avg (avg master : Nat → Option ℚ) (r : TRow) {a : ℚ}
    (h0 : r.unit_price = 0 ∧ r.line_total = 0) (havg : avg r.sku = some a) :
    (enrichRow avg master r).unit_price = a
    ∧ (enrichRow avg master r).line_total = r.quantity * a := by
  unfold enrichRow
  rw [if_pos h0, havg]
  exact ⟨rfl, rfl⟩

theorem enrichRow_vals_master (avg master : Nat → Option ℚ) (r : TRow) {m : ℚ}
    (h0 : r.unit_price = 0 ∧ r.line_total = 0) (ha : avg r.sku = none)
    (hm : master r.sku = some m) :
    (enrichRow avg master r).unit_price = m
    ∧ (enrichRow avg master r).line_total = r.quantity * m := by
  unfold enrichRow
  rw [if_pos h0, ha, hm]
  exact ⟨rfl, rfl⟩

theorem enrichRow_toRow_unres (avg master : Nat → Option ℚ) (r : TRow)
    (h0 : r.unit_price = 0 ∧ r.line_total = 0) (ha : avg r.sku = none)
    (hm : master r.sku = none) :
    (enrichRow avg master r).toRow = r := by
  unfold enrichRow ERow.toRow
  rw [if_pos h0, ha, hm]

theorem enrichRow_source_unres (avg master : Nat → Option ℚ) (r : TRow)
    (h0 : r.unit_price = 0 ∧ r.line_total = 0) (ha : avg r.sku = none)
    (hm : master r.sku = none) :
    (enrichRow avg master r).price_source = PriceSource.missing_no_reference := by
  unfold enrichRow
  rw [if_pos h0, ha, hm]

theorem enrichRow_vals_backfill (avg master : Nat → Option ℚ) (r : TRow)
    (h0 : ¬(r.unit_price = 0 ∧ r.line_total = 0))
    (h1 : r.unit_price = 0 ∧ 0 < r.line_total) (hq : 0 < r.quantity) :
    (enrichRow avg master r).unit_price = r.line_total / r.quantity
    ∧ (enrichRow avg master r).line_total = r.line_total := by
  unfold enrichRow
  rw [if_neg h0, if_pos h1, if_pos hq]
  exact ⟨rfl, rfl⟩

theorem enrichRow_toRow_nofill (avg master : Nat → Option ℚ) (r : TRow)
    (h0 : ¬(r.unit_price = 0 ∧ r.line_total = 0))
    (h1 : r.unit_price = 0 ∧ 0 < r.line_total) (hq : ¬0 < r.quantity) :
    (enrichRow avg master r).toRow = r := by
  unfold enrichRow ERow.toRow
  rw [if_neg h0, if_pos h1, if_neg hq]

theorem enrichRow_toRow_untouched (avg master : Nat → Option ℚ) (r : TRow)
    (h0 : ¬(r.unit_price = 0 ∧ r.line_total = 0))
    (h1 : ¬(r.unit_price = 0 ∧ 0 < r.line_total)) :
    (enrichRow avg master r).toRow = r := by
  unfold enrichRow ERow.toRow
  rw [if_neg h0, if_neg h1]

theorem enrichRow_untouched_of_price_ne (avg master : Nat → Option ℚ) (r : TRow)
    (hp : r.unit_price ≠ 0) :
    (enrichRow avg master r).unit_price = r.unit_price
    ∧ (enrichRow avg master r).line_total = r.line_total := by
  unfold enrichRow
  rw [if_neg (fun h => hp h.1), if_neg (fun h => hp h.1)]
  exact ⟨rfl, rfl⟩

theorem enrichRow_source_of_price_ne (avg master : Nat → Option ℚ) (r : TRow)
    (hp : r.unit_price ≠ 0) :
    (enrichRow avg master r).price_source = PriceSource.original := by
  unfold enrichRow
  rw [if_neg (fun h => hp h.1), if_neg (fun h => hp h.1)]

theorem vals_of_toRow_eq {avg master : Nat → Option ℚ} {r : TRow}
    (h : (enrichRow avg master r).toRow = r) :
    (enrichRow avg master r).unit_price = r.unit_price
    ∧ (enrichRow avg master r).line_total = r.line_total :=
  ⟨by rw [← ERow.toRow_unit_price, h], by rw [← ERow.toRow_line_total, h]⟩

theorem effective_price_enrichRow_stable (avg master : Nat → Option ℚ) (r : TRow)
    (ha : avg r.sku = none) (hm : master r.sku = none) :
    effective_price (enrichRow avg master r).toRow = effective_price r := by
  by_cases h0 : r.unit_price = 0 ∧ r.line_total = 0
  · rw [enrichRow_toRow_unres avg master r h0 ha hm]
  · by_cases h1 : r.unit_price = 0 ∧ 0 < r.line_total
    · by_cases hq : 0 < r.quantity
      · have ht : (enrichRow avg master r).toRow
            = ⟨r.sku, r.quantity, r.line_total / r.quantity, r.line_total,
                r.region_name, r.customer_id⟩ := by
          unfold enrichRow ERow.toRow
          rw [if_neg h0, if_pos h1, if_pos hq]
        rw [ht]
        unfold effective_price
        rw [if_pos hq, if_pos hq]
      · rw [enrichRow_toRow_nofill avg master r h0 h1 hq]
    · rw [enrichRow_toRow_untouched avg master r h0 h1]

theorem effPrices_stable (ledger : List TRow) (products : List (Nat × ℚ)) (s : Nat)
    (ha : skuAvgPrice ledger s = none) (hm : masterPrice products s = none) :
    effPrices ((enrich_prices ledger products).map ERow.toRow) s
      = effPrices ledger s := by
  unfold effPrices enrich_prices
  rw [List.map_map]
  rw [List.filter_map (ERow.toRow ∘ enrichRow (skuAvgPrice ledger) (masterPrice products))
    ledger]
  have hfil : ((fun r => r.sku == s)
      ∘ (ERow.toRow ∘ enrichRow (skuAvgPrice ledger) (masterPrice products)))
      = fun r : TRow => r.sku == s := by
    funext r
    simp [Function.comp, ERow.toRow_sku, enrichRow_sku]
  rw [hfil, List.map_map]
  congr 1
  apply List.map_congr_left
  intro r hr
  have hs : r.sku = s := by
    have := (List.mem_filter.mp hr).2
    simpa using this
  exact effective_price_enrichRow_stable _ _ r (by rw [hs]; exact ha)
    (by rw [hs]; exact hm)

theorem skuAvgPrice_stable (ledger : List TRow) (products : List (Nat × ℚ)) (s : Nat)
    (ha : skuAvgPrice ledger s = none) (hm : masterPrice products s = none) :
    skuAvgPrice ((enrich_prices ledger products).map ERow.toRow) s = none := by
  have he : (effPrices ledger s).isEmpty = true := by
    by_contra hne
    simp [skuAvgPrice, hne] at ha
  unfold skuAvgPrice
  rw [effPrices_stable ledger products s ha hm]
  simp [he]

theorem enrichRow_source_hastotal (avg master : Nat → Option ℚ) (r : TRow)
    (h0 : ¬(r.unit_price = 0 ∧ r.line_total = 0))
    (h1 : r.unit_price = 0 ∧ 0 < r.line_total) :
    (enrichRow avg master r).price_source = PriceSource.has_total_no_unit_price := by
  unfold enrichRow
  rw [if_neg h0, if_pos h1]
  by_cases hq : 0 < r.quantity
  · rw [if_pos hq]
  · rw [if_neg hq]

theorem enrichRow_source_untouched (avg master : Nat → Option ℚ) (r : TRow)
    (h0 : ¬(r.unit_price = 0 ∧ r.line_total = 0))
    (h1 : ¬(r.unit_price = 0 ∧ 0 < r.line_total)) :
    (enrichRow avg master r).price_source = PriceSource.original := by
  unfold enrichRow
  rw [if_neg h0, if_neg h1]

theorem enrichRow_idem_vals (A A2 M : Nat → Option ℚ)
    (hApos : ∀ s a, A s = some a → 0 < a)
    (hMpos : ∀ s m, M s = some m → 0 < m)
    (hstab : ∀ s, A s = none → M s = none → A2 s = none) (r : TRow) :
    (enrichRow A2 M ((enrichRow A M r).toRow)).unit_price
        = (enrichRow A M r).unit_price
    ∧ (enrichRow A2 M ((enrichRow A M r).toRow)).line_total
        = (enrichRow A M r).line_total := by
  by_cases h0 : r.unit_price = 0 ∧ r.line_total = 0
  · cases havg : A r.sku with
    | some a =>
      obtain ⟨hu1, -⟩ := enrichRow_vals_avg A M r h0 havg
      have hpne : ((enrichRow A M r).toRow).unit_price ≠ 0 := by
        rw [ERow.toRow_unit_price, hu1]
        exact (hApos _ _ havg).ne'
      obtain ⟨hu2, hl2⟩ := enrichRow_untouched_of_price_ne A2 M _ hpne
      exact ⟨by rw [hu2, ERow.toRow_unit_price], by rw [hl2, ERow.toRow_line_total]⟩
    | none =>
      cases hm : M r.sku with
      | some m =>
        obtain ⟨hu1, -⟩ := enrichRow_vals_master A M r h0 havg hm
        have hpne : ((enrichRow A M r).toRow).unit_price ≠ 0 := by
          rw [ERow.toRow_unit_price, hu1]
          exact (hMpos _ _ hm).ne'
        obtain ⟨hu2, hl2⟩ := enrichRow_untouched_of_price_ne A2 M _ hpne
        exact ⟨by rw [hu2, ERow.toRow_unit_price], by rw [hl2, ERow.toRow_line_total]⟩
      | none =>
        have ht := enrichRow_toRow_unres A M r h0 havg hm
        obtain ⟨hu1, hl1⟩ := vals_of_toRow_eq ht
        rw [ht]
        have ha2 : A2 r.sku = none := hstab _ havg hm
        have ht2 := enrichRow_toRow_unres A2 M r h0 ha2 hm
        obtain ⟨hu2, hl2⟩ := vals_of_toRow_eq ht2
        rw [hu1, hl1, hu2, hl2]
        exact ⟨rfl, rfl⟩
  · by_cases h1 : r.unit_price = 0 ∧ 0 < r.line_total
    · by_cases hq : 0 < r.quantity
      · obtain ⟨hu1, -⟩ := enrichRow_vals_backfill A M r h0 h1 hq
        have hpne : ((enrichRow A M r).toRow).unit_price ≠ 0 := by
          rw [ERow.toRow_unit_price, hu1]
          exact (div_pos h1.2 hq).ne'
        obtain ⟨hu2, hl2⟩ := enrichRow_untouched_of_price_ne A2 M _ hpne
        exact ⟨by rw [hu2, ERow.toRow_unit_price], by rw [hl2, ERow.toRow_line_total]⟩
      · have ht := enrichRow_toRow_nofill A M r h0 h1 hq
        obtain ⟨hu1, hl1⟩ := vals_of_toRow_eq ht
        rw [ht]
        have ht2 := enrichRow_toRow_nofill A2 M r h0 h1 hq
        obtain ⟨hu2, hl2⟩ := vals_of_toRow_eq ht2
        rw [hu1, hl1, hu2, hl2]
        exact ⟨rfl, rfl⟩
    · have ht := enrichRow_toRow_untouched A M r h0 h1
      obtain ⟨hu1, hl1⟩ := vals_of_toRow_eq ht
      rw [ht]
      have ht2 := enrichRow_toRow_untouched A2 M r h0 h1
      obtain ⟨hu2, hl2⟩ := vals_of_toRow_eq ht2
      rw [hu1, hl1, hu2, hl2]
      exact ⟨rfl, rfl⟩

theorem enrichRow_idem_source (A A2 M : Nat → Option ℚ)
    (hApos : ∀ s a, A s = some a → 0 < a)
    (hMpos : ∀ s m, M s = some m → 0 < m)
    (hstab : ∀ s, A s = none → M s = none → A2 s = none) (r : TRow) :
    (enrichRow A2 M ((enrichRow A M r).toRow)).price_source
        ≠ PriceSource.inferred_from_sku_avg
    ∧ (enrichRow A2 M ((enrichRow A M r).toRow)).price_source
        ≠ PriceSource.inferred_from_master := by
  by_cases h0 : r.unit_price = 0 ∧ r.line_total = 0
  · cases havg : A r.sku with
    | some a =>
      obtain ⟨hu1, -⟩ := enrichRow_vals_avg A M r h0 havg
      have hpne : ((enrichRow A M r).toRow).unit_price ≠ 0 := by
        rw [ERow.toRow_unit_price, hu1]
        exact (hApos _ _ havg).ne'
      rw [enrichRow_source_of_price_ne A2 M _ hpne]
      exact ⟨by simp, by simp⟩
    | none =>
      cases hm : M r.sku with
      | some m =>
        obtain ⟨hu1, -⟩ := enrichRow_vals_master A M r h0 havg hm
        have hpne : ((enrichRow A M r).toRow).unit_price ≠ 0 := by
          rw [ERow.toRow_unit_price, hu1]
          exact (hMpos _ _ hm).ne'
        rw [enrichRow_source_of_price_ne A2 M _ hpne]
        exact ⟨by simp, by simp⟩
      | none =>
        have ht := enrichRow_toRow_unres A M r h0 havg hm
        rw [ht]
        have ha2 : A2 r.sku = none := hstab _ havg hm
        rw [enrichRow_source_unres A2 M r h0 ha2 hm]
        exact ⟨by simp, by simp⟩
  · by_cases h1 : r.unit_price = 0 ∧ 0 < r.line_total
    · by_cases hq : 0 < r.quantity
      · obtain ⟨hu1, -⟩ := enrichRow_vals_backfill A M r h0 h1 hq
        have hpne : ((enrichRow A M r).toRow).unit_price ≠ 0 := by
          rw [ERow.toRow_unit_price, hu1]
          exact (div_pos h1.2 hq).ne'
        rw [enrichRow_source_of_price_ne A2 M _ hpne]
        exact ⟨by simp, by simp⟩
      · have ht := enrichRow_toRow_nofill A M r h0 h1 hq
        rw [ht]
        rw [enrichRow_source_hastotal A2 M r h0 h1]
        exact ⟨by simp, by simp⟩
    · have ht := enrichRow_toRow_untouched A M r h0 h1
      rw [ht]
      rw [enrichRow_source_untouched A2 M r h0 h1]
      exact ⟨by simp, by simp⟩

/-- C4 (amended): the Enrichment Cascade is idempotent on the economic
values — a second pass over the output of the first changes no row's
`unit_price` or `line_total`, and the second pass never re-infers a row
(no output row of the second pass carries an `inferred_from_sku_avg` or
`inferred_from_master` tag).  The audit tags themselves are however NOT
preserved: `enrich_prices` unconditionally resets `price_source` to
`original` (STAGE2_5_ENRICH.py line 53), so rows resolved in the first
pass are re-tagged `original` by the second
(see `enrichment_idempotence_counterexample`). -/
theorem enrichment_value_idempotent :
    ∀ (ledger : List TRow) (products : List (Nat × ℚ)),
      (enrich_prices ((enrich_prices ledger products).map ERow.toRow) products).map
          (fun o => (o.unit_price, o.line_total))
        = (enrich_prices ledger products).map (fun o => (o.unit_price, o.line_total))
      ∧ (∀ o ∈ enrich_prices ((enrich_prices ledger products).map ERow.toRow) products,
          o.price_source ≠ PriceSource.inferred_from_sku_avg
          ∧ o.price_source ≠ PriceSource.inferred_from_master) := by
  intro ledger products
  have hApos : ∀ s a, skuAvgPrice ledger s = some a → 0 < a :=
    fun s a h => skuAvgPrice_pos h
  have hMpos : ∀ s m, masterPrice products s = some m → 0 < m :=
    fun s m h => masterPrice_pos h
  have hstab : ∀ s, skuAvgPrice ledger s = none → masterPrice products s = none →
      skuAvgPrice ((enrich_prices ledger products).map ERow.toRow) s = none :=
    fun s => skuAvgPrice_stable ledger products s
  constructor
  · show ((((ledger.map (enrichRow (skuAvgPrice ledger) (masterPrice products))).map
        ERow.toRow).map
          (enrichRow (skuAvgPrice ((enrich_prices ledger products).map ERow.toRow))
            (masterPrice products))).map (fun o => (o.unit_price, o.line_total)))
      = ((ledger.map (enrichRow (skuAvgPrice ledger) (masterPrice products))).map
          (fun o => (o.unit_price, o.line_total)))
    rw [List.map_map, List.map_map, List.map_map, List.map_map]
    apply List.map_congr_left
    intro r _
    obtain ⟨hu, hl⟩ := enrichRow_idem_vals (skuAvgPrice ledger)
      (skuAvgPrice ((enrich_prices ledger products).map ERow.toRow))
      (masterPrice products) hApos hMpos hstab r
    simp only [Function.comp_apply]
    rw [hu, hl]
  · intro o ho
    have ho2 : o ∈ (((ledger.map (enrichRow (skuAvgPrice ledger)
        (masterPrice products))).map ERow.toRow).map
          (enrichRow (skuAvgPrice ((enrich_prices ledger products).map ERow.toRow))
            (masterPrice products))) := ho
    rw [List.map_map, List.map_map] at ho2
    rcases List.mem_map.mp ho2 with ⟨r, -, rfl⟩
    exact enrichRow_idem_source (skuAvgPrice ledger)
      (skuAvgPrice ((enrich_prices ledger products).map ERow.toRow))
      (masterPrice products) hApos hMpos hstab r

/-- Witness for `enrichment_value_idempotent`: the no-re-inference part,
discharged on the concrete two-row ledger in which the second row is
resolved from the first row's SKU average on the first pass. -/
theorem enrichment_value_idempotent_witness :
    (⟨1, 2, 5, 10, "Cape Town", some "c", PriceSource.original, false, 5, 10⟩ : ERow)
        ∈ enrich_prices ((enrich_prices
          [⟨1, 2, 5, 10, "Cape Town", some "c"⟩,
           ⟨1, 3, 0, 0, "Cape Town", some "c"⟩] []).map ERow.toRow) []
    ∧ (⟨1, 2, 5, 10, "Cape Town", some "c", PriceSource.original, false, 5, 10⟩
          : ERow).price_source ≠ PriceSource.inferred_from_sku_avg
    ∧ (⟨1, 2, 5, 10, "Cape Town", some "c", PriceSource.original, false, 5, 10⟩
          : ERow).price_source ≠ PriceSource.inferred_from_master :=
  have hmem : (⟨1, 2, 5, 10, "Cape Town", some "c", PriceSource.original, false, 5, 10⟩
      : ERow) ∈ enrich_prices ((enrich_prices
        [⟨1, 2, 5, 10, "Cape Town", some "c"⟩,
         ⟨1, 3, 0, 0, "Cape Town", some "c"⟩] []).map ERow.toRow) [] := by
    norm_num [enrich_prices, enrichRow, skuAvgPrice, effPrices, effective_price,
      masterPrice, ERow.toRow]
  have h := (enrichment_value_idempotent
    [⟨1, 2, 5, 10, "Cape Town", some "c"⟩,
     ⟨1, 3, 0, 0, "Cape Town", some "c"⟩] []).2 _ hmem
  ⟨hmem, h.1, h.2⟩

/-- C4 counterexample: the claim asserts the second pass leaves the
`price_source` tags unchanged; on the two-row ledger whose second row is
truly missing and is resolved from its sibling's SKU average, the first
pass tags the second row `inferred_from_sku_avg`, but the second pass
re-tags it `original` (the enriched row now has a positive price and
revenue, and `enrich_prices` resets all tags at entry), so the
tag columns of the two passes differ. -/
theorem enrichment_idempotence_counterexample :
    (enrich_prices ((enrich_prices
        [⟨1, 2, 5, 10, "Cape Town", some "c"⟩,
         ⟨1, 3, 0, 0, "Cape Town", some "c"⟩] []).map ERow.toRow) []).map
        (fun o => o.price_source)
      ≠ (enrich_prices
        [⟨1, 2, 5, 10, "Cape Town", some "c"⟩,
         ⟨1, 3, 0, 0, "Cape Town", some "c"⟩] []).map (fun o => o.price_source) := by
  have h1 : (enrich_prices
      [⟨1, 2, 5, 10, "Cape Town", some "c"⟩,
       ⟨1, 3, 0, 0, "Cape Town", some "c"⟩] []).map (fun o => o.price_source)
      = [PriceSource.original, PriceSource.inferred_from_sku_avg] := by
    norm_num [enrich_prices, enrichRow, skuAvgPrice, effPrices, effective_price,
      masterPrice]
  have h2 : (enrich_prices ((enrich_prices
      [⟨1, 2, 5, 10, "Cape Town", some "c"⟩,
       ⟨1, 3, 0, 0, "Cape Town", some "c"⟩] []).map ERow.toRow) []).map
      (fun o => o.price_source)
      = [PriceSource.original, PriceSource.original] := by
    norm_num [enrich_prices, enrichRow, skuAvgPrice, effPrices, effective_price,
      masterPrice, ERow.toRow]
  rw [h1, h2]
  simp

/-! ## Section 2: wmape and the Confidence Classifier
(`scripts/TRAIN_V4_MODELS.py` lines 48-60, `scripts/TRAIN_ALL_MODELS.py`
lines 40-42) -/

/-- `np.sum(np.abs(actual - predicted))`: elementwise absolute difference
of two equal-length series, summed. -/
def sumAbsDiff (actual predicted : List ℚ) : ℚ :=
  (List.zipWith (fun a p => |a - p|) actual predicted).sum

/-- `calculate_wmape` of TRAIN_V4_MODELS.py lines 48-51 (same in
TRAIN_V3_HYBRID.py line 43): `100 * Σ|a-p| / Σa if Σa > 0 else 999`. -/
def calculate_wmape (actual predicted : List ℚ) : ℚ :=
  if 0 < actual.sum then 100 * sumAbsDiff actual predicted / actual.sum else 999

/-- `calculate_wmape` of TRAIN_ALL_MODELS.py lines 40-42: the same ratio
with NO zero-sum guard.  In float arithmetic a zero denominator yields
`NaN` (0/0) or `±inf`; both are modelled as `none`. -/
def calculate_wmape_all (actual predicted : List ℚ) : Option ℚ :=
  if actual.sum = 0 then none
  else some (100 * sumAbsDiff actual predicted / actual.sum)

/-- The three confidence tiers of `get_confidence`. -/
inductive Confidence where
  | High
  | Medium
  | Low
deriving DecidableEq

/-- `get_confidence(wmape, h1_weeks)` (TRAIN_V4_MODELS.py lines 53-60):
High when `wmape < 40` and at least 15 training weeks, else Medium when
`wmape < 60` and at least 10 training weeks, else Low. -/
def get_confidence (wmape : ℚ) (h1_weeks : Nat) : Confidence :=
  if wmape < 40 ∧ 15 ≤ h1_weeks then Confidence.High
  else if wmape < 60 ∧ 10 ≤ h1_weeks then Confidence.Medium
  else Confidence.Low

/-- C7 (amended): the wmape of TRAIN_V4_MODELS.py / TRAIN_V3_HYBRID.py
computes `100 * Σ|actual-predicted| / Σactual` whenever `Σactual > 0`
and returns the sentinel 999 whenever `Σactual = 0` (indeed whenever
`Σactual ≤ 0`), never an undefined value; the wmape of
TRAIN_ALL_MODELS.py has no sentinel and is undefined (float NaN/inf,
modelled `none`) whenever `Σactual = 0`. -/
theorem wmape_sentinel :
    (∀ actual predicted : List ℚ, actual.sum = 0 →
      calculate_wmape actual predicted = 999)
    ∧ (∀ actual predicted : List ℚ, 0 < actual.sum →
      calculate_wmape actual predicted
        = 100 * sumAbsDiff actual predicted / actual.sum)
    ∧ (∀ actual predicted : List ℚ, actual.sum = 0 →
      calculate_wmape_all actual predicted = none) := by
  refine ⟨fun a p h => ?_, fun a p h => ?_, fun a p h => ?_⟩
  · unfold calculate_wmape
    rw [if_neg]
    rw [h]
    exact lt_irrefl 0
  · unfold calculate_wmape
    rw [if_pos h]
  · unfold calculate_wmape_all
    rw [if_pos h]

/-- Witness for `wmape_sentinel` at concrete series. -/
theorem wmape_sentinel_witness :
    ([0] : List ℚ).sum = 0
    ∧ calculate_wmape [0] [5] = 999
    ∧ (0 : ℚ) < ([2] : List ℚ).sum
    ∧ calculate_wmape [2] [5] = 100 * sumAbsDiff [2] [5] / ([2] : List ℚ).sum
    ∧ calculate_wmape_all [0] [5] = none :=
  have h1 : ([0] : List ℚ).sum = 0 := by norm_num
  have h3 : (0 : ℚ) < ([2] : List ℚ).sum := by norm_num
  ⟨h1, wmape_sentinel.1 [0] [5] h1, h3, wmape_sentinel.2.1 [2] [5] h3,
    wmape_sentinel.2.2 [0] [5] h1⟩

/-- C7 counterexample: at an entity whose test-window actuals sum to
zero (`actual = [0]`), the TRAIN_ALL_MODELS.py wmape — one of the two
implementations the claim covers — divides by zero and is undefined
(`none`, a float NaN/inf), not the sentinel 999. -/
theorem wmape_counterexample :
    calculate_wmape_all [0] [5] = none
    ∧ calculate_wmape_all [0] [5] ≠ some 999 :=
  ⟨by norm_num [calculate_wmape_all], by simp [calculate_wmape_all]⟩

/-! ## Section 3: lag and rolling features
(`scripts/extract_sku_data_v2.py` lines 563-573,
`scripts/TRAIN_V4_MODELS.py` lines 62-104)

An entity's week-ordered series (the result of
`sort_values(['sku','year_week'])` followed by `groupby('sku')`) is
embedded as a function `x : ℕ → ℚ` from the position in the entity's
sorted week list to the aggregated weekly value; position `i` is week
`w`, positions `j < i` are the weeks strictly before `w`. -/

/-- `groupby(entity)[col].shift(k)` at position `i`
(extract_sku_data_v2.py lines 564-566, applied with `k ∈ {1,2,4}` to
`weekly_quantity` and `avg_unit_price`; TRAIN_V4_MODELS.py line 78 with
`k = 1` to the price): the value `k` positions earlier, `NaN` (`none`)
for the first `k` positions. -/
def lag_feature (x : ℕ → ℚ) (k i : ℕ) : Option ℚ :=
  if k ≤ i then some (x (i - k)) else none

/-- The trailing window of `rolling(4, min_periods=1)` at position `i`:
the values at positions `i, i-1, ..., max(0, i-3)` — it INCLUDES
position `i` itself. -/
def rollWindow (x : ℕ → ℚ) (i : ℕ) : List ℚ :=
  (List.range (min (i + 1) 4)).map (fun j => x (i - j))

/-- `rolling_avg_4w` (extract_sku_data_v2.py lines 568-570):
`groupby('sku')['weekly_quantity'].transform(lambda x: x.rolling(4,
min_periods=1).mean())` — a trailing mean with NO `shift(1)`, so the
window includes week `i`'s own value.  `price_rolling_avg_4w`
(lines 571-573) is the same function applied to the price series. -/
def rolling_avg_4w (x : ℕ → ℚ) (i : ℕ) : ℚ :=
  (rollWindow x i).sum / (rollWindow x i).length

/-- The window of `shift(1).rolling(4, min_periods=1)` at position `i`:
the values at positions `i-1, ..., max(0, i-4)`; empty at `i = 0`. -/
def shiftWindow (x : ℕ → ℚ) (i : ℕ) : List ℚ :=
  (List.range (min i 4)).map (fun j => x (i - 1 - j))

/-- `rolling_std_4w` (TRAIN_V4_MODELS.py lines 86-88):
`shift(1).rolling(4, min_periods=1).std()`, embedded as the sample
variance (ddof = 1) of the shifted window; the pandas std is its square
root, so it is a function of this value.  `none` models the `NaN` that
pandas produces when the window has fewer than two values (and at
`i = 0`, where the shifted window is empty). -/
def rolling_std_4w_sq (x : ℕ → ℚ) (i : ℕ) : Option ℚ :=
  let w := shiftWindow x i
  if w.length < 2 then none
  else some ((w.map (fun v => (v - w.sum / w.length) ^ 2)).sum / (w.length - 1))

/-- The two concrete series of the no-leakage counterexample: they agree
strictly before position 1 and differ at position 1. -/
def seriesA : ℕ → ℚ := fun j => if j = 0 then 10 else 20

/-- See `seriesA`. -/
def seriesB : ℕ → ℚ := fun j => if j = 0 then 10 else 100

/-- C1 (amended): the lag features (`lag{1,2,4}` of quantity and price)
and the shifted rolling std (`rolling_std_4w` of
TRAIN_V4_MODELS.py) at week `i` depend only on the entity's values at
weeks strictly before `i`; the unshifted rolling mean `rolling_avg_4w`
of extract_sku_data_v2.py depends only on weeks up to AND INCLUDING `i`
(it reads week `i`'s own value; see `no_leakage_counterexample`). -/
theorem feature_past_dependence :
    (∀ (x y : ℕ → ℚ) (k i : ℕ), (k = 1 ∨ k = 2 ∨ k = 4) →
      (∀ j, j < i → x j = y j) → lag_feature x k i = lag_feature y k i)
    ∧ (∀ (x y : ℕ → ℚ) (i : ℕ),
      (∀ j, j < i → x j = y j) → rolling_std_4w_sq x i = rolling_std_4w_sq y i)
    ∧ (∀ (x y : ℕ → ℚ) (i : ℕ),
      (∀ j, j ≤ i → x j = y j) → rolling_avg_4w x i = rolling_avg_4w y i) := by
  refine ⟨fun x y k i hk h => ?_, fun x y i h => ?_, fun x y i h => ?_⟩
  · unfold lag_feature
    by_cases hki : k ≤ i
    · rw [if_pos hki, if_pos hki, h (i - k) (by omega)]
    · rw [if_neg hki, if_neg hki]
  · have hw : shiftWindow x i = shiftWindow y i := by
      unfold shiftWindow
      apply List.map_congr_left
      intro j hj
      rw [List.mem_range] at hj
      exact h (i - 1 - j) (by omega)
    unfold rolling_std_4w_sq
    rw [hw]
  · have hw : rollWindow x i = rollWindow y i := by
      unfold rollWindow
      apply List.map_congr_left
      intro j hj
      rw [List.mem_range] at hj
      exact h (i - j) (by omega)
    unfold rolling_avg_4w
    rw [hw]

/-- Witness for `feature_past_dependence` at the concrete series
`seriesA`, which agrees with itself everywhere. -/
theorem feature_past_dependence_witness :
    ((1 : ℕ) = 1 ∨ (1 : ℕ) = 2 ∨ (1 : ℕ) = 4)
    ∧ lag_feature seriesA 1 3 = lag_feature seriesA 1 3
    ∧ rolling_std_4w_sq seriesA 3 = rolling_std_4w_sq seriesA 3
    ∧ rolling_avg_4w seriesA 3 = rolling_avg_4w seriesA 3 :=
  ⟨Or.inl rfl,
    feature_past_dependence.1 seriesA seriesA 1 3 (Or.inl rfl) (fun _ _ => rfl),
    feature_past_dependence.2.1 seriesA seriesA 3 (fun _ _ => rfl),
    feature_past_dependence.2.2 seriesA seriesA 3 (fun _ _ => rfl)⟩

/-- C1 counterexample: `rolling_avg_4w` at week 1 is NOT a function of
the weeks strictly before week 1 alone.  `seriesA` and `seriesB` agree
at every week `< 1`, yet their week-1 rolling means differ
(`(10+20)/2 = 15` vs `(10+100)/2 = 55`): the window of
extract_sku_data_v2.py lines 568-570 has no `shift(1)` and includes week
1's own quantity, so changing the week-1 row changes the week-1 feature. -/
theorem no_leakage_counterexample :
    ¬ ((∀ j, j < 1 → seriesA j = seriesB j) →
        rolling_avg_4w seriesA 1 = rolling_avg_4w seriesB 1) := by
  intro h
  have hpast : ∀ j, j < 1 → seriesA j = seriesB j := by
    intro j hj
    interval_cases j
    rfl
  have heq := h hpast
  have hA : rolling_avg_4w seriesA 1 = 15 := by
    norm_num [rolling_avg_4w, rollWindow, seriesA, List.range_succ]
  have hB : rolling_avg_4w seriesB 1 = 55 := by
    norm_num [rolling_avg_4w, rollWindow, seriesB, List.range_succ]
  rw [hA, hB] at heq
  norm_num at heq

/-! ## Section 4: the Hierarchical Trainer/Predictor
(`scripts/TRAIN_V4_MODELS.py` `main`, per-SKU part, lines 119-266;
`scripts/TRAIN_V3_HYBRID.py` `main`, lines 46-144)

The external `GradientBoostingRegressor` is abstracted as a parameter
`fit : List FRow → FRow → ℚ` (training rows to prediction function); in
the embedding a fit never fails, so the `try/except: continue` around
`train_model` (lines 191-196) is the identity.  In TRAIN_V4_MODELS.py
the whole feature table passes through `add_v4_features`, which ends
with `df = df.fillna(0)` (line 100), so the later
`dropna(subset=v4_features[:4])` calls (lines 183, 201, 209) drop no
row; they are therefore omitted here.  A feature row carries the columns
the routing logic reads. -/

/-- A row of the V4 weekly feature table after `add_v4_features`:
`sku`, the `week_num` extracted from `year_week`, and the target
`weekly_quantity`.  The remaining (NaN-filled) feature columns are only
ever passed opaquely to the regressor, which is itself abstract, so they
are represented by the row itself. -/
structure FRow where
  sku : Nat
  week_num : Nat
  weekly_quantity : ℚ
deriving DecidableEq

/-- `H1_END_WEEK = 26` (TRAIN_V4_MODELS.py line 39). -/
def H1_END_WEEK : Nat := 26

/-- `train_all = weekly[weekly['week_num'] <= H1_END_WEEK]` (line 158). -/
def trainAll (t : List FRow) : List FRow :=
  t.filter (fun r => decide (r.week_num ≤ H1_END_WEEK))

/-- `test_all = weekly[weekly['week_num'] > H1_END_WEEK]` (line 159). -/
def testAll (t : List FRow) : List FRow :=
  t.filter (fun r => decide (H1_END_WEEK < r.week_num))

/-- `train_sku = train_all[train_all['category'] != 'Unknown']`
(line 171); `skuCat` is the per-SKU category map built from the product
dimension with `fillna('Unknown')` (line 132). -/
def trainSku (t : List FRow) (skuCat : Nat → String) : List FRow :=
  (trainAll t).filter (fun r => decide (skuCat r.sku ≠ "Unknown"))

/-- `h1_weeks_per_sku = train_all.groupby('sku').size()` (line 175),
with `.get(sku, 0)` semantics. -/
def h1Weeks (t : List FRow) (s : Nat) : Nat :=
  ((trainAll t).filter (fun r => r.sku == s)).length

/-- `sku_train = train_sku[train_sku['sku'] == sku]` (line 183). -/
def dedicatedTrainRows (t : List FRow) (skuCat : Nat → String) (s : Nat) : List FRow :=
  (trainSku t skuCat).filter (fun r => r.sku == s)

/-- `sku in sku_models` (line 217): a dedicated model exists for a SKU
exactly when its slice of `train_sku` has at least 4 rows — the loop at
lines 182-196 iterates over `train_sku['sku'].unique()` and skips SKUs
with `len(sku_train) < 4`; in the embedding a fit never fails. -/
def hasDedicated (t : List FRow) (skuCat : Nat → String) (s : Nat) : Bool :=
  decide (4 ≤ (dedicatedTrainRows t skuCat s).length)

/-- The `model_type` tag of a prediction row: the source writes the
strings `sku` (dedicated per-SKU model) and `global` (pooled fallback)
at lines 217-222; the spec calls them `dedicated` and `pooled`. -/
inductive ModelScope where
  | dedicated
  | pooled
deriving DecidableEq

/-- `round(x, 1)` (line 233), on rationals. -/
def round1 (q : ℚ) : ℚ := (round (10 * q) : ℤ) / 10

/-- `test_all['sku'].unique()` (line 208): first-occurrence order of the
SKUs of the test partition. -/
def uniqueSkus (l : List FRow) : List Nat := (l.map (fun r => r.sku)).dedup

/-- `sku_test = test_all[test_all['sku'] == sku]` (line 209; the
`dropna` there is a no-op after `fillna(0)`). -/
def skuTestRows (t : List FRow) (s : Nat) : List FRow :=
  (testAll t).filter (fun r => r.sku == s)

/-- A row of `sku_results` (lines 226-236) before the wmape/confidence
columns are appended. -/
structure PredRow where
  sku : Nat
  week_num : Nat
  actual : ℚ
  predicted : ℚ
  model_scope : ModelScope
  h1_weeks : Nat
deriving DecidableEq

/-- One row of `sku_results` for the loop SKU `s` and test row `r`
(lines 217-236): route to the dedicated model when one exists for `s`
and to the pooled (global) model otherwise, clip the prediction at 0
(`np.clip(.., 0, None)`, line 224) and round it to one decimal. -/
def v4BlockRow (t : List FRow) (skuCat : Nat → String)
    (fit : List FRow → FRow → ℚ) (s : Nat) (r : FRow) : PredRow :=
  { sku := s
    week_num := r.week_num
    actual := r.weekly_quantity
    predicted := round1 (max 0 (fit
      (if hasDedicated t skuCat s then dedicatedTrainRows t skuCat s
       else trainSku t skuCat) r))
    model_scope := if hasDedicated t skuCat s then ModelScope.dedicated
      else ModelScope.pooled
    h1_weeks := h1Weeks t s }

/-- The prediction loop of lines 208-236: for each SKU of the test
partition, emit one `v4BlockRow` per test row of that SKU. -/
def v4PredictBase (t : List FRow) (skuCat : Nat → String)
    (fit : List FRow → FRow → ℚ) : List PredRow :=
  (uniqueSkus (testAll t)).flatMap (fun s =>
    (skuTestRows t s).map (v4BlockRow t skuCat fit s))

/-- `x['actual']` of one SKU's prediction rows (groupby at line 241). -/
def entityActuals (preds : List PredRow) (s : Nat) : List ℚ :=
  (preds.filter (fun p => p.sku == s)).map (fun p => p.actual)

/-- `x['predicted']` of one SKU's prediction rows. -/
def entityPredicted (preds : List PredRow) (s : Nat) : List ℚ :=
  (preds.filter (fun p => p.sku == s)).map (fun p => p.predicted)

/-- `sku_wmape` (lines 241-243): per-SKU wmape over that SKU's
prediction rows. -/
def skuWmape (preds : List PredRow) (s : Nat) : ℚ :=
  calculate_wmape (entityActuals preds s) (entityPredicted preds s)

/-- A finished row of `sku_df` (lines 238-248): the base prediction row
with the entity-level `wmape` and `confidence` columns broadcast on. -/
structure PredFull where
  sku : Nat
  week_num : Nat
  actual : ℚ
  predicted : ℚ
  model_scope : ModelScope
  h1_weeks : Nat
  wmape : ℚ
  confidence : Confidence
deriving DecidableEq

/-- Lines 245-248: `sku_df['wmape'] = sku_df['sku'].map(sku_wmape)` and
`sku_df['confidence'] = sku_df.apply(lambda x: get_confidence(x['wmape'],
x['h1_weeks']), axis=1)`. -/
def v4Predictions (t : List FRow) (skuCat : Nat → String)
    (fit : List FRow → FRow → ℚ) : List PredFull :=
  (v4PredictBase t skuCat fit).map (fun p =>
    { sku := p.sku
      week_num := p.week_num
      actual := p.actual
      predicted := p.predicted
      model_scope := p.model_scope
      h1_weeks := p.h1_weeks
      wmape := skuWmape (v4PredictBase t skuCat fit) p.sku
      confidence := get_confidence (skuWmape (v4PredictBase t skuCat fit) p.sku)
        p.h1_weeks })

theorem countP_flatMap {α β : Type} (l : List α) (f : α → List β) (p : β → Bool) :
    (l.flatMap f).countP p = (l.map (fun a => (f a).countP p)).sum := by
  induction l with
  | nil => rfl
  | cons a l ih =>
    rw [List.flatMap_cons, List.countP_append, ih, List.map_cons, List.sum_cons]

theorem sum_map_single {α : Type} [DecidableEq α] (l : List α) (f : α → Nat) (e : α)
    (hn : l.Nodup) (h0 : ∀ s ∈ l, s ≠ e → f s = 0) :
    (l.map f).sum = if e ∈ l then f e else 0 := by
  induction l with
  | nil => simp
  | cons a l ih =>
    rcases List.nodup_cons.mp hn with ⟨ha, hn2⟩
    rw [List.map_cons, List.sum_cons]
    by_cases hae : a = e
    · subst hae
      have hz : (l.map f).sum = 0 := by
        apply List.sum_eq_zero
        intro x hx
        rcases List.mem_map.mp hx with ⟨s, hs, rfl⟩
        exact h0 s (List.mem_cons_of_mem _ hs) (fun he => ha (he ▸ hs))
      simp [hz]
    · rw [ih hn2 (fun s hs hne => h0 s (List.mem_cons_of_mem _ hs) hne),
        h0 a (List.mem_cons_self a l) hae]
      simp [List.mem_cons, show ¬e = a from fun h => hae h.symm]

theorem mem_v4PredictBase {t : List FRow} {skuCat : Nat → String}
    {fit : List FRow → FRow → ℚ} {p : PredRow}
    (hp : p ∈ v4PredictBase t skuCat fit) :
    p.model_scope = (if hasDedicated t skuCat p.sku then ModelScope.dedicated
        else ModelScope.pooled)
    ∧ p.h1_weeks = h1Weeks t p.sku := by
  unfold v4PredictBase at hp
  rcases List.mem_flatMap.mp hp with ⟨s, -, hmem⟩
  rcases List.mem_map.mp hmem with ⟨r, -, rfl⟩
  exact ⟨rfl, rfl⟩

theorem mem_v4Predictions {t : List FRow} {skuCat : Nat → String}
    {fit : List FRow → FRow → ℚ} {q : PredFull}
    (hq : q ∈ v4Predictions t skuCat fit) :
    q.model_scope = (if hasDedicated t skuCat q.sku then ModelScope.dedicated
        else ModelScope.pooled)
    ∧ q.h1_weeks = h1Weeks t q.sku
    ∧ q.confidence = get_confidence (skuWmape (v4PredictBase t skuCat fit) q.sku)
        (h1Weeks t q.sku) := by
  unfold v4Predictions at hq
  rcases List.mem_map.mp hq with ⟨p, hp, rfl⟩
  obtain ⟨hsc, hh⟩ := mem_v4PredictBase hp
  refine ⟨hsc, hh, ?_⟩
  show get_confidence (skuWmape (v4PredictBase t skuCat fit) p.sku) p.h1_weeks
    = get_confidence (skuWmape (v4PredictBase t skuCat fit) p.sku) (h1Weeks t p.sku)
  rw [hh]

/-- C2 (amended, V4 part): in TRAIN_V4_MODELS.py — where the feature
table is NaN-filled before the split, so the `dropna` on the test slice
drops nothing — every `(entity, week)` row of the test partition yields
exactly one prediction row (the prediction count for each `(e, w)` pair
equals the test-row count for that pair), and each prediction carries
`model_scope = dedicated` exactly when a dedicated model exists for its
entity, `pooled` otherwise; routing is a total function (dictionary
membership, never a lookup error).  In TRAIN_V3_HYBRID.py this totality
fails: see `routing_totality_counterexample`. -/
theorem routing_totality :
    (∀ (t : List FRow) (skuCat : Nat → String) (fit : List FRow → FRow → ℚ)
        (e w : Nat),
      (v4Predictions t skuCat fit).countP
          (fun q => q.sku == e && q.week_num == w)
        = (testAll t).countP (fun r => r.sku == e && r.week_num == w))
    ∧ (∀ (t : List FRow) (skuCat : Nat → String) (fit : List FRow → FRow → ℚ)
        (q : PredFull), q ∈ v4Predictions t skuCat fit →
      (q.model_scope = ModelScope.dedicated ↔ hasDedicated t skuCat q.sku = true)) := by
  constructor
  · intro t skuCat fit e w
    have h1 : (v4Predictions t skuCat fit).countP
        (fun q => q.sku == e && q.week_num == w)
        = (v4PredictBase t skuCat fit).countP
          (fun p => p.sku == e && p.week_num == w) := by
      unfold v4Predictions
      rw [List.countP_map]
      rfl
    rw [h1]
    unfold v4PredictBase
    rw [countP_flatMap]
    have hfun : (fun s => ((skuTestRows t s).map (v4BlockRow t skuCat fit s)).countP
        (fun p => p.sku == e && p.week_num == w))
        = fun s => (skuTestRows t s).countP (fun r => s == e && r.week_num == w) := by
      funext s
      rw [List.countP_map]
      rfl
    rw [hfun]
    have h0block : ∀ s ∈ uniqueSkus (testAll t), s ≠ e →
        (skuTestRows t s).countP (fun r => s == e && r.week_num == w) = 0 := by
      intro s _ hne
      rw [List.countP_eq_zero]
      intro r _ hpred
      have hse : s = e ∧ r.week_num = w := by simpa using hpred
      exact hne hse.1
    rw [sum_map_single (uniqueSkus (testAll t)) _ e (List.nodup_dedup _) h0block]
    by_cases he : e ∈ uniqueSkus (testAll t)
    · rw [if_pos he]
      have h2 : (skuTestRows t e).countP (fun r => e == e && r.week_num == w)
          = (skuTestRows t e).countP (fun r => r.week_num == w) :=
        List.countP_congr (fun r _ => by simp)
      rw [h2]
      unfold skuTestRows
      rw [List.countP_filter]
      exact List.countP_congr (fun r _ => by rw [Bool.and_comm])
    · rw [if_neg he]
      symm
      rw [List.countP_eq_zero]
      intro r hr hpred
      apply he
      have hsku : r.sku = e := by
        have h := (by simpa using hpred : r.sku = e ∧ r.week_num = w)
        exact h.1
      unfold uniqueSkus
      rw [List.mem_dedup]
      exact List.mem_map.mpr ⟨r, hr, hsku⟩
  · intro t skuCat fit q hq
    obtain ⟨hsc, -, -⟩ := mem_v4Predictions hq
    cases hd : hasDedicated t skuCat q.sku with
    | false =>
      rw [hd] at hsc
      simp only [Bool.false_eq_true, if_false] at hsc
      simp [hsc, hd]
    | true =>
      rw [hd] at hsc
      simp only [if_true] at hsc
      simp [hsc, hd]

/-- A row of the `v2_features_weekly.csv` table as TRAIN_V3_HYBRID.py
sees it (lines 53-68): the lag / rolling / price feature columns come
from extract_sku_data_v2.py and may be `NaN` (`none`) — V3 does NOT
NaN-fill them before `dropna`. -/
structure HRow where
  sku : Nat
  category : String
  week_num : Nat
  weekly_quantity : ℚ
  lag1_quantity : Option ℚ
  lag2_quantity : Option ℚ
  lag4_quantity : Option ℚ
  rolling_avg_4w : Option ℚ
  avg_unit_price : Option ℚ
deriving DecidableEq

/-- Whether `dropna(subset=feature_cols)` (TRAIN_V3_HYBRID.py lines 79,
93, 116) drops the row: some feature column is `NaN` (`week_num`, also
in `feature_cols`, is an extracted integer and never `NaN`). -/
def hasNA (r : HRow) : Bool :=
  r.lag1_quantity.isNone || r.lag2_quantity.isNone || r.lag4_quantity.isNone
    || r.rolling_avg_4w.isNone || r.avg_unit_price.isNone

/-- `train = weekly[weekly['week_num'] <= 26]` (line 71). -/
def hTrain (t : List HRow) : List HRow :=
  t.filter (fun r => decide (r.week_num ≤ 26))

/-- `test = weekly[weekly['week_num'] > 26]` (line 72). -/
def hTest (t : List HRow) : List HRow :=
  t.filter (fun r => decide (26 < r.week_num))

/-- `test['category'].unique()` (line 115). -/
def uniqueCats (l : List HRow) : List String :=
  (l.map (fun r => r.category)).dedup

/-- `cat_train = train[train['category'] == cat].dropna(subset=feature_cols)`
(line 93). -/
def hCatTrain (t : List HRow) (c : String) : List HRow :=
  (hTrain t).filter (fun r => r.category == c && !hasNA r)

/-- `train_valid = train.dropna(subset=feature_cols)` (line 79), the
pooled model's training slice. -/
def hGlobalTrain (t : List HRow) : List HRow :=
  (hTrain t).filter (fun r => !hasNA r)

/-- A row of the V3 hybrid `predictions` list (lines 133-141). -/
structure HPred where
  sku : Nat
  category : String
  week_num : Nat
  actual : ℚ
  predicted : ℚ
  model_scope : ModelScope
deriving DecidableEq

/-- The V3 hybrid prediction loop (TRAIN_V3_HYBRID.py lines 115-141):
for each test category, `cat_test = test[test['category'] ==
cat].dropna(subset=feature_cols)` — test rows with a missing feature are
DROPPED — then each surviving row is predicted with the per-category
model when the category's (dropna'd) training slice has at least 50 rows
(lines 95-106) and with the global model otherwise, clipped at 0
(line 131).  `model_scope = dedicated` stands for the source tag
`category`, `pooled` for `global`. -/
def v3Predictions (t : List HRow) (fit : List HRow → HRow → ℚ) : List HPred :=
  (uniqueCats (hTest t)).flatMap (fun c =>
    (((hTest t).filter (fun r => r.category == c)).filter (fun r => !hasNA r)).map
      (fun r =>
        { sku := r.sku
          category := c
          week_num := r.week_num
          actual := r.weekly_quantity
          predicted := max 0 (fit
            (if 50 ≤ (hCatTrain t c).length then hCatTrain t c else hGlobalTrain t) r)
          model_scope := if 50 ≤ (hCatTrain t c).length then ModelScope.dedicated
            else ModelScope.pooled }))

/-- C2 counterexample: in TRAIN_V3_HYBRID.py a test row with a missing
(`NaN`) lag feature is silently dropped.  The one-row table whose single
test row (entity 1, week 30) has `lag1_quantity = NaN` has one test row
for the pair `(1, 30)` but ZERO prediction rows for it — the claim's
"exactly one prediction record for every test (entity, week) row, no
test row dropped" is false on this cited implementation. -/
theorem routing_totality_counterexample :
    (hTest [⟨1, "A", 30, 5, none, some 0, some 0, some 0, some 0⟩]).countP
        (fun r => r.sku == 1 && r.week_num == 30) = 1
    ∧ (v3Predictions [⟨1, "A", 30, 5, none, some 0, some 0, some 0, some 0⟩]
        (fun _ _ => 0)).countP (fun p => p.sku == 1 && p.week_num == 30) = 0 := by
  constructor
  · decide
  · decide

/-- Witness for `routing_totality`: the scope conjunct, discharged at a
concrete five-row table whose SKU 7 has four training rows and one test
row, so its single prediction is routed to the dedicated model. -/
theorem routing_totality_witness :
    (⟨7, 30, 5, 0, ModelScope.dedicated, 4, 100, Confidence.Low⟩ : PredFull)
        ∈ v4Predictions [⟨7, 1, 1⟩, ⟨7, 2, 2⟩, ⟨7, 3, 1⟩, ⟨7, 4, 3⟩, ⟨7, 30, 5⟩]
            (fun _ => "A") (fun _ _ => 0)
    ∧ ((⟨7, 30, 5, 0, ModelScope.dedicated, 4, 100, Confidence.Low⟩
          : PredFull).model_scope = ModelScope.dedicated
        ↔ hasDedicated [⟨7, 1, 1⟩, ⟨7, 2, 2⟩, ⟨7, 3, 1⟩, ⟨7, 4, 3⟩, ⟨7, 30, 5⟩]
            (fun _ => "A")
            (⟨7, 30, 5, 0, ModelScope.dedicated, 4, 100, Confidence.Low⟩
              : PredFull).sku = true) :=
  have hmem : (⟨7, 30, 5, 0, ModelScope.dedicated, 4, 100, Confidence.Low⟩ : PredFull)
      ∈ v4Predictions [⟨7, 1, 1⟩, ⟨7, 2, 2⟩, ⟨7, 3, 1⟩, ⟨7, 4, 3⟩, ⟨7, 30, 5⟩]
          (fun _ => "A") (fun _ _ => 0) := by
    have hcat : (decide (¬("A" : String) = "Unknown")) = true := by decide
    have hev : v4Predictions [⟨7, 1, 1⟩, ⟨7, 2, 2⟩, ⟨7, 3, 1⟩, ⟨7, 4, 3⟩, ⟨7, 30, 5⟩]
        (fun _ => "A") (fun _ _ => 0)
        = [⟨7, 30, 5, 0, ModelScope.dedicated, 4, 100, Confidence.Low⟩] := by
      norm_num [v4Predictions, v4PredictBase, v4BlockRow, uniqueSkus, skuTestRows,
        testAll, trainAll, trainSku, dedicatedTrainRows, hasDedicated, h1Weeks,
        skuWmape, entityActuals, entityPredicted, calculate_wmape, sumAbsDiff,
        round1, get_confidence, H1_END_WEEK, hcat]
    rw [hev]
    exact List.mem_singleton.mpr rfl
  ⟨hmem, routing_totality.2 _ _ _ _ hmem⟩

/-- C3 counterexample: the per-SKU training loop of TRAIN_V4_MODELS.py
(lines 182-196) has NO test-partition condition — on a table where SKU 7
has four training rows and no test row at all, a dedicated model IS
trained (`len(sku_train) >= 4` is the only gate), refuting the claim
that a dedicated model is trained only if the entity also has at least
one test row.  (The category-level loop, lines 296-301, does check
`len(cat_te) == 0`; the SKU-level loop does not.) -/
theorem dedicated_gate_counterexample :
    hasDedicated [⟨7, 1, 1⟩, ⟨7, 2, 2⟩, ⟨7, 3, 1⟩, ⟨7, 4, 3⟩] (fun _ => "A") 7 = true
    ∧ testAll [⟨7, 1, 1⟩, ⟨7, 2, 2⟩, ⟨7, 3, 1⟩, ⟨7, 4, 3⟩] = [] := by
  constructor
  · decide
  · decide

/-- C3 (amended): at the SKU level a dedicated model is trained for an
entity exactly when its slice of the non-Unknown-category training rows
has at least 4 rows — presence in the test partition is NOT required
(see `dedicated_gate_counterexample`); and Scenario B holds: an entity
with 3 training weeks is below the minimum, gets no dedicated model,
and every one of its prediction rows is tagged with the pooled scope. -/
theorem dedicated_model_gate :
    (∀ (t : List FRow) (skuCat : Nat → String) (s : Nat),
      hasDedicated t skuCat s = true ↔ 4 ≤ (dedicatedTrainRows t skuCat s).length)
    ∧ (∀ (t : List FRow) (skuCat : Nat → String) (fit : List FRow → FRow → ℚ)
        (s : Nat), h1Weeks t s = 3 →
      ∀ q ∈ v4Predictions t skuCat fit, q.sku = s →
        q.model_scope = ModelScope.pooled) := by
  constructor
  · intro t skuCat s
    unfold hasDedicated
    exact decide_eq_true_iff
  · intro t skuCat fit s h3 q hq hqs
    obtain ⟨hsc, -, -⟩ := mem_v4Predictions hq
    have hsub : (dedicatedTrainRows t skuCat s).length ≤ h1Weeks t s := by
      unfold dedicatedTrainRows trainSku h1Weeks
      exact List.Sublist.length_le ((List.filter_sublist _).filter _)
    have hded : hasDedicated t skuCat s = false := by
      unfold hasDedicated
      exact decide_eq_false (by omega)
    rw [hqs, hded] at hsc
    simpa using hsc

/-- Witness for `dedicated_model_gate`: Scenario B discharged at a
concrete table whose SKU 9 has exactly 3 training rows and one test
row; its prediction is routed to the pooled model. -/
theorem dedicated_model_gate_witness :
    h1Weeks [⟨9, 1, 1⟩, ⟨9, 2, 2⟩, ⟨9, 3, 1⟩, ⟨9, 30, 4⟩] 9 = 3
    ∧ (⟨9, 30, 4, 0, ModelScope.pooled, 3, 100, Confidence.Low⟩ : PredFull)
        ∈ v4Predictions [⟨9, 1, 1⟩, ⟨9, 2, 2⟩, ⟨9, 3, 1⟩, ⟨9, 30, 4⟩]
            (fun _ => "A") (fun _ _ => 0)
    ∧ (⟨9, 30, 4, 0, ModelScope.pooled, 3, 100, Confidence.Low⟩ : PredFull).sku = 9
    ∧ (⟨9, 30, 4, 0, ModelScope.pooled, 3, 100, Confidence.Low⟩
        : PredFull).model_scope = ModelScope.pooled :=
  have h3 : h1Weeks [⟨9, 1, 1⟩, ⟨9, 2, 2⟩, ⟨9, 3, 1⟩, ⟨9, 30, 4⟩] 9 = 3 := by decide
  have hmem : (⟨9, 30, 4, 0, ModelScope.pooled, 3, 100, Confidence.Low⟩ : PredFull)
      ∈ v4Predictions [⟨9, 1, 1⟩, ⟨9, 2, 2⟩, ⟨9, 3, 1⟩, ⟨9, 30, 4⟩]
          (fun _ => "A") (fun _ _ => 0) := by
    have hcat : (decide (¬("A" : String) = "Unknown")) = true := by decide
    have hev : v4Predictions [⟨9, 1, 1⟩, ⟨9, 2, 2⟩, ⟨9, 3, 1⟩, ⟨9, 30, 4⟩]
        (fun _ => "A") (fun _ _ => 0)
        = [⟨9, 30, 4, 0, ModelScope.pooled, 3, 100, Confidence.Low⟩] := by
      norm_num [v4Predictions, v4PredictBase, v4BlockRow, uniqueSkus, skuTestRows,
        testAll, trainAll, trainSku, dedicatedTrainRows, hasDedicated, h1Weeks,
        skuWmape, entityActuals, entityPredicted, calculate_wmape, sumAbsDiff,
        round1, get_confidence, H1_END_WEEK, hcat]
    rw [hev]
    exact List.mem_singleton.mpr rfl
  ⟨h3, hmem,
    rfl,
    dedicated_model_gate.2 _ _ _ 9 h3 _ hmem rfl⟩

/-- C8: `get_confidence` returns High exactly when `wmape < 40` and the
entity has at least 15 training weeks, Medium exactly when not High and
`wmape < 60` with at least 10 training weeks, Low otherwise; an entity
with 20 training weeks and wmape 25 is High; and in the V4 prediction
table every row of an entity carries that entity's single tier (the
tier is a function of the entity's wmape and training-week count
alone). -/
theorem confidence_tiers :
    (∀ (w : ℚ) (n : Nat), get_confidence w n = Confidence.High ↔ (w < 40 ∧ 15 ≤ n))
    ∧ (∀ (w : ℚ) (n : Nat), get_confidence w n = Confidence.Medium ↔
        (¬(w < 40 ∧ 15 ≤ n) ∧ w < 60 ∧ 10 ≤ n))
    ∧ get_confidence 25 20 = Confidence.High
    ∧ (∀ (t : List FRow) (skuCat : Nat → String) (fit : List FRow → FRow → ℚ)
        (p q : PredFull), p ∈ v4Predictions t skuCat fit →
        q ∈ v4Predictions t skuCat fit → p.sku = q.sku →
        p.confidence = q.confidence) := by
  refine ⟨fun w n => ?_, fun w n => ?_, by norm_num [get_confidence], ?_⟩
  · unfold get_confidence
    by_cases h1 : w < 40 ∧ 15 ≤ n
    · simp [h1]
    · by_cases h2 : w < 60 ∧ 10 ≤ n
      · simp [h1, h2]
      · simp [h1, h2]
  · unfold get_confidence
    by_cases h1 : w < 40 ∧ 15 ≤ n
    · simp [h1]
    · by_cases h2 : w < 60 ∧ 10 ≤ n
      · simp [h1, h2]
      · simp [h1, h2]
  · intro t skuCat fit p q hp hq hpq
    obtain ⟨-, -, hc1⟩ := mem_v4Predictions hp
    obtain ⟨-, -, hc2⟩ := mem_v4Predictions hq
    rw [hc1, hc2, hpq]

/-- Witness for `confidence_tiers`: the broadcast conjunct discharged at
a concrete table whose SKU 7 has two test rows; both prediction rows
carry the same tier. -/
theorem confidence_tiers_witness :
    (⟨7, 30, 5, 0, ModelScope.dedicated, 4, 100, Confidence.Low⟩ : PredFull)
        ∈ v4Predictions
            [⟨7, 1, 1⟩, ⟨7, 2, 2⟩, ⟨7, 3, 1⟩, ⟨7, 4, 3⟩, ⟨7, 30, 5⟩, ⟨7, 31, 3⟩]
            (fun _ => "A") (fun _ _ => 0)
    ∧ (⟨7, 31, 3, 0, ModelScope.dedicated, 4, 100, Confidence.Low⟩ : PredFull)
        ∈ v4Predictions
            [⟨7, 1, 1⟩, ⟨7, 2, 2⟩, ⟨7, 3, 1⟩, ⟨7, 4, 3⟩, ⟨7, 30, 5⟩, ⟨7, 31, 3⟩]
            (fun _ => "A") (fun _ _ => 0)
    ∧ (⟨7, 30, 5, 0, ModelScope.dedicated, 4, 100, Confidence.Low⟩ : PredFull).sku
        = (⟨7, 31, 3, 0, ModelScope.dedicated, 4, 100, Confidence.Low⟩ : PredFull).sku
    ∧ (⟨7, 30, 5, 0, ModelScope.dedicated, 4, 100, Confidence.Low⟩
        : PredFull).confidence
      = (⟨7, 31, 3, 0, ModelScope.dedicated, 4, 100, Confidence.Low⟩
        : PredFull).confidence :=
  have hev : v4Predictions
      [⟨7, 1, 1⟩, ⟨7, 2, 2⟩, ⟨7, 3, 1⟩, ⟨7, 4, 3⟩, ⟨7, 30, 5⟩, ⟨7, 31, 3⟩]
      (fun _ => "A") (fun _ _ => 0)
      = [⟨7, 30, 5, 0, ModelScope.dedicated, 4, 100, Confidence.Low⟩,
         ⟨7, 31, 3, 0, ModelScope.dedicated, 4, 100, Confidence.Low⟩] := by
    have hcat : (decide (¬("A" : String) = "Unknown")) = true := by decide
    norm_num [v4Predictions, v4PredictBase, v4BlockRow, uniqueSkus, skuTestRows,
      testAll, trainAll, trainSku, dedicatedTrainRows, hasDedicated, h1Weeks,
      skuWmape, entityActuals, entityPredicted, calculate_wmape, sumAbsDiff,
      round1, get_confidence, H1_END_WEEK, hcat]
  have hm1 : (⟨7, 30, 5, 0, ModelScope.dedicated, 4, 100, Confidence.Low⟩ : PredFull)
      ∈ v4Predictions
          [⟨7, 1, 1⟩, ⟨7, 2, 2⟩, ⟨7, 3, 1⟩, ⟨7, 4, 3⟩, ⟨7, 30, 5⟩, ⟨7, 31, 3⟩]
          (fun _ => "A") (fun _ _ => 0) := by
    rw [hev]
    exact List.mem_cons_self _ _
  have hm2 : (⟨7, 31, 3, 0, ModelScope.dedicated, 4, 100, Confidence.Low⟩ : PredFull)
      ∈ v4Predictions
          [⟨7, 1, 1⟩, ⟨7, 2, 2⟩, ⟨7, 3, 1⟩, ⟨7, 4, 3⟩, ⟨7, 30, 5⟩, ⟨7, 31, 3⟩]
          (fun _ => "A") (fun _ _ => 0) := by
    rw [hev]
    exact List.mem_cons_of_mem _ (List.mem_cons_self _ _)
  ⟨hm1, hm2, rfl, confidence_tiers.2.2.2 _ _ _ _ _ hm1 hm2 rfl⟩
